import Mathlib

/-
  Verification development for the mcp_agent_test repository.

  Shallow embedding of the agent-orchestration core:
  - src/dialogue_server.py and src/server.py : the sarcasm tool (pure string function)
  - src/client.py : MCPClient channel lifecycle, DialogueAgent / PostgreSQLAgent
    tool-calling loops
  - src/mcp_agents/agent_manager.py : lazy agent-kind registry, roster
    materialization, termination condition, chat creation
  - src/mcp_agents/planner_agent.py : coordinator construction
  - src/autogen_agent.py : answer extraction from the collected transcript

  Python strings that undergo character-level surgery are embedded as List Char;
  strings that are only constructed and compared are embedded as String.
-/

/- ## Section 1: dialogue tool host (src/dialogue_server.py, src/server.py) -/

/-- The literal suffix " 🙃" appended by the sarcasm tool. -/
def smileySuffix : List Char := [' ', '🙃']

/-- The per-character case mappings applied by the Python str.upper and
str.lower inside the sarcasm tool. The Unicode case table they consult is
data of the Python runtime, external to the repository, so the tool is
embedded relative to it; a single character may case-map to several
characters (the uppercase of the sharp s is SS), so each mapping yields a
character list. -/
structure CaseMapping where
  upper : Char → List Char
  lower : Char → List Char

/-- The ASCII fragment of the Python case mappings: on ASCII characters the
Python str.upper and str.lower agree with Char.toUpper and Char.toLower and
map one character to one character. Used to evaluate the tool on the
concrete ASCII phrases below. -/
def asciiCaseMapping : CaseMapping :=
  { upper := fun c => [c.toUpper], lower := fun c => [c.toLower] }

/-- Embedding of the sarcasm tool of src/dialogue_server.py lines 22-33 (the
identical copy is src/server.py lines 10-21): iterate over the characters of
the phrase with their indices, appending the Python uppercase of the
character at even indices and the Python lowercase at odd indices to the
accumulated string, then append the smiley suffix. -/
def sarcasm (cm : CaseMapping) (phrase : List Char) : List Char :=
  (phrase.enum.foldl
    (fun acc ic =>
      acc ++ (if ic.1 % 2 == 0 then cm.upper ic.2 else cm.lower ic.2)) [])
    ++ smileySuffix

/- ## Section 2: tool channel (src/client.py, class MCPClient) -/

/-- Embedding of MCPClient of src/client.py lines 13-93. The Python object
holds a session reference that is None until connect() succeeds. The three
exchange counters instrument the request/response traffic with the tool-host
process: connect() awaits one initialize handshake, get_available_tools()
awaits one list_tools exchange, call_tool() awaits one tool invocation
exchange. A fresh session identity is recorded per connect, so a replaced
session is observably distinct. -/
structure MCPClient where
  session : Option Nat
  init_exchanges : Nat
  list_tools_exchanges : Nat
  call_tool_exchanges : Nat
deriving DecidableEq

/-- The state of MCPClient.__init__ of src/client.py lines 19-23: no session
yet, no traffic with the tool host yet. -/
def initial_client : MCPClient :=
  { session := none, init_exchanges := 0, list_tools_exchanges := 0,
    call_tool_exchanges := 0 }

/-- Embedding of MCPClient.connect of src/client.py lines 37-43. The body is
unconditional: it starts a new stdio client, enters a new ClientSession and
awaits session.initialize() — one more handshake — regardless of whether a
session already exists. The new session identity is the current handshake
count, which is fresh. -/
def connect (c : MCPClient) : MCPClient :=
  { c with session := some c.init_exchanges,
           init_exchanges := c.init_exchanges + 1 }

/-- Embedding of MCPClient.get_available_tools of src/client.py lines 45-53:
raises RuntimeError when self.session is not set, before any exchange with
the host; otherwise awaits session.list_tools() — one list_tools exchange —
and returns the tools reported by the host. The host catalog is a parameter
since the tool-host process is external. -/
def get_available_tools (c : MCPClient) (host_tools : List String) :
    MCPClient × Except String (List String) :=
  match c.session with
  | none => (c, Except.error "Not connected to MCP server")
  | some _ =>
      ({ c with list_tools_exchanges := c.list_tools_exchanges + 1 },
       Except.ok host_tools)

/-- Embedding of MCPClient.call_tool of src/client.py lines 78-93: raises
RuntimeError when self.session is not set, before any exchange; otherwise
awaits session.call_tool — one invocation exchange — and returns the result
reported by the host. -/
def call_tool (c : MCPClient) (tool_name : String) (arguments : String)
    (host_result : String) : MCPClient × Except String String :=
  match c.session with
  | none => (c, Except.error "Not connected to MCP server")
  | some _ =>
      ({ c with call_tool_exchanges := c.call_tool_exchanges + 1 },
       Except.ok host_result)

/- ## Section 3: tool-calling loop (src/client.py, PostgreSQLAgent.run) -/

/-- One tool-call request returned by the model: the call identifier, the
function name and the JSON-encoded arguments (src/client.py lines 242-245). -/
structure ToolCall where
  id : String
  function_name : String
  function_arguments : String
deriving DecidableEq

/-- A message of the running message list of the loop, mirroring the dict
payloads appended by src/client.py: the initial user prompt, an assistant
message carrying one tool call (lines 269-282), a tool-result message linked
by tool_call_id (lines 284-290), and a plain assistant text message
(lines 292-294). -/
inductive ChatMsg where
  | user (content : String)
  | assistantCalls (call : ToolCall)
  | toolResult (tool_call_id : String) (name : String) (content : String)
  | assistantText (content : String)
deriving DecidableEq

/-- A tool invocation backend: given the function name and the argument JSON,
either the primary text of the returned content (the ok case of
src/client.py line 253-256) or the message of the raised exception. -/
def ToolExec : Type := String → String → Except String String

/-- The result text recorded for one call, src/client.py lines 252-267: on
success the text of the first content block, on an exception the synthesized
error description naming the failed function. -/
def tool_result_text (toolExec : ToolExec) (call : ToolCall) : String :=
  match toolExec call.function_name call.function_arguments with
  | Except.ok t => t
  | Except.error e =>
      "Error executing " ++ call.function_name ++ ": " ++ e

/-- The per-round tool-execution loop of PostgreSQLAgent.run, src/client.py
lines 242-290: for each requested call, in the order the model returned them,
invoke the tool, then append the linked assistant-request and tool-result
pair; a failed invocation appends the error description instead of aborting. -/
def process_tool_calls (toolExec : ToolExec) (messages : List ChatMsg)
    (calls : List ToolCall) : List ChatMsg :=
  calls.foldl
    (fun acc call =>
      acc ++ [ChatMsg.assistantCalls call,
              ChatMsg.toolResult call.id call.function_name
                (tool_result_text toolExec call)])
    messages

/-- The model completion message inspected by the loop, src/client.py
lines 231-237: the finish reason (whether it equals "tool_calls"), the list
of requested tool calls (empty models a missing or empty tool_calls field),
and the optional assistant content. -/
structure ModelChoice where
  finish_tool_calls : Bool
  tool_calls : List ToolCall
  content : Option String
deriving DecidableEq

/-- How one turn of PostgreSQLAgent.run ends. The code has exactly two exits:
printing the final assistant content and breaking (lines 299-302), or the
defensive break when finish_reason is tool_calls but no calls were returned
(lines 236-239). There is no round-cap exit in the code. -/
inductive TurnOutcome where
  | finalAnswer (content : Option String)
  | noCallsBreak
deriving DecidableEq

/-- One iteration of the while-loop of PostgreSQLAgent.run, src/client.py
lines 223-302, after the completion response arrived: either the loop
continues with the grown message list (Sum.inl) or the turn ends (Sum.inr).
When the model also returned content alongside tool calls it is appended
after the tool-result messages (lines 292-294). -/
def run_round (toolExec : ToolExec) (model_msg : ModelChoice)
    (messages : List ChatMsg) : List ChatMsg ⊕ TurnOutcome :=
  if model_msg.finish_tool_calls then
    match model_msg.tool_calls with
    | [] => Sum.inr TurnOutcome.noCallsBreak
    | calls =>
        let messages1 := process_tool_calls toolExec messages calls
        let messages2 :=
          match model_msg.content with
          | some c => messages1 ++ [ChatMsg.assistantText c]
          | none => messages1
        Sum.inl messages2
  else Sum.inr (TurnOutcome.finalAnswer model_msg.content)

/-- The while-True loop of PostgreSQLAgent.run, src/client.py lines 223-302,
with explicit fuel counting completed model rounds: none means the code would
still be looping after that many rounds. The model capability is a function
of the running message list. The source loop has no iteration bound of its
own; the fuel is only the depth of the unrolling. -/
def run_loop (model : List ChatMsg → ModelChoice) (toolExec : ToolExec) :
    Nat → List ChatMsg → Option TurnOutcome
  | 0, _ => none
  | fuel + 1, messages =>
      match run_round toolExec (model messages) messages with
      | Sum.inl messages2 => run_loop model toolExec fuel messages2
      | Sum.inr outcome => some outcome

/-- A synthetic model behavior that requests a tool call on every completion
round, used to examine the loop bound of the code. -/
def always_tool_model : List ChatMsg → ModelChoice :=
  fun _ =>
    { finish_tool_calls := true,
      tool_calls := [{ id := "call_1", function_name := "query",
                       function_arguments := "\x7b\x7d" }],
      content := none }

/-- A tool backend that fails every invocation. -/
def failing_tool : ToolExec := fun name _ => Except.error ("boom " ++ name)

/-- The loop terminates for a given model, tool backend and initial message
list when some finite number of rounds produces an outcome. -/
def loop_terminates (model : List ChatMsg → ModelChoice) (toolExec : ToolExec)
    (messages : List ChatMsg) : Prop :=
  ∃ fuel outcome, run_loop model toolExec fuel messages = some outcome

/- ## Section 4: agent-kind registry (src/mcp_agents/agent_manager.py) -/

/-- One entry of AgentManager.agent_types, src/mcp_agents/agent_manager.py
lines 43-63: the module path and function name used for the lazy load, the
loaded flag and the cached construction function. The function object is
embedded abstractly as a String identity. -/
structure AgentTypeEntry where
  module : String
  function : String
  loaded : Bool
  create_fn : Option String
deriving DecidableEq

/-- Embedding of AgentManager.register_agent_type, src/mcp_agents/
agent_manager.py lines 108-125 (also the shape of the entries created in
__init__): a freshly registered kind is not loaded and holds no cached
function. -/
def register_agent_type (module_path : String) (function_name : String) :
    AgentTypeEntry :=
  { module := module_path, function := function_name,
    loaded := false, create_fn := none }

/-- Embedding of AgentManager._load_agent_function, src/mcp_agents/
agent_manager.py lines 72-106, for one entry. The import of the module is
external, so its outcome is the parameter import_result: some fn when
importlib.import_module and getattr succeed, none when they raise. The code
returns the cached function when the entry is loaded and holds one; otherwise
it attempts the import, caches on success, and on failure returns None
leaving the entry untouched. Returns the updated entry and the returned
function. -/
def load_agent_function (entry : AgentTypeEntry)
    (import_result : Option String) : AgentTypeEntry × Option String :=
  if entry.loaded && entry.create_fn.isSome then (entry, entry.create_fn)
  else
    match import_result with
    | some fn =>
        ({ entry with loaded := true, create_fn := some fn }, some fn)
    | none => (entry, none)

/-- The entry after a sequence of resolve attempts whose import outcomes are
the given list (one outcome per attempt, consumed only when the code actually
performs the import). -/
def run_resolves (entry : AgentTypeEntry) (imports : List (Option String)) :
    AgentTypeEntry :=
  imports.foldl (fun e r => (load_agent_function e r).1) entry

/-- All states the entry passes through during a sequence of resolve
attempts, the initial state included. -/
def resolve_states (entry : AgentTypeEntry) :
    List (Option String) → List AgentTypeEntry
  | [] => [entry]
  | r :: rs => entry :: resolve_states (load_agent_function entry r).1 rs

/-- The first successful import outcome of a sequence of attempts. -/
def first_some : List (Option String) → Option String
  | [] => none
  | some fn :: _ => some fn
  | none :: rest => first_some rest

/- ## Section 5: termination policy (src/mcp_agents/agent_manager.py,
   create_termination_condition, lines 237-248; same combination in
   src/autogen_agent.py lines 128-136) -/

/-- Modelled from the spec: the built-in TextMentionTermination used by
create_termination_condition is autogen library code not under src/. Per the
spec, keyword termination fires when the text of the most recent appended
message contains the designated marker token. A transcript is the list of
appended message texts. -/
def text_mention_termination (keyword : List Char)
    (transcript : List (List Char)) : Bool :=
  match transcript.getLast? with
  | some m => decide (keyword <:+: m)
  | none => false

/-- Modelled from the spec: the built-in MaxMessageTermination used by
create_termination_condition is autogen library code not under src/. Per the
spec, turn-count termination fires when the total number of appended messages
reaches the configured maximum. -/
def max_message_termination (max_messages : Nat)
    (transcript : List (List Char)) : Bool :=
  decide (max_messages ≤ transcript.length)

/-- The default keyword argument of create_termination_condition,
src/mcp_agents/agent_manager.py line 237. -/
def default_termination_keyword : List Char := "[TERMINATE_ALL]".toList

/-- The default max_turns argument of create_termination_condition,
src/mcp_agents/agent_manager.py line 237 (the same default 15 appears in
src/autogen_agent.py line 128). -/
def default_max_turns : Nat := 15

/-- Embedding of create_termination_condition, src/mcp_agents/
agent_manager.py lines 237-248: the keyword condition and the message-count
condition combined with the logical OR operator, as a predicate on the
transcript so far. -/
def create_termination_condition (keyword : List Char) (max_turns : Nat)
    (transcript : List (List Char)) : Bool :=
  text_mention_termination keyword transcript
    || max_message_termination max_turns transcript

/-- Modelled from the spec: the SelectorGroupChat run loop that evaluates the
termination condition after every appended message is autogen library code
not under src/. A session whose transcript is the given list has terminated
when the condition fired after some appended message, that is on some
nonempty initial segment of the transcript. -/
def session_terminated (keyword : List Char) (max_turns : Nat)
    (transcript : List (List Char)) : Bool :=
  (List.range transcript.length).any
    (fun i => create_termination_condition keyword max_turns
      (transcript.take (i + 1)))

/- ## Section 6: roster materialization and chat creation
   (src/mcp_agents/agent_manager.py, src/mcp_agents/planner_agent.py) -/

/-- The fields of an autogen AssistantAgent used by this core: name,
description and system message. -/
structure AssistantAgent where
  name : String
  description : String
  system_message : String
deriving DecidableEq

/-- Embedding of the agent_descriptions dict lookup with its default of
src/mcp_agents/planner_agent.py lines 13-18 and 22. -/
def agent_descriptions (agent_name : String) : String :=
  if agent_name = "dialogue_agent" then
    "for generating character-based dialogues"
  else if agent_name = "postgres_agent" then
    "for querying the PostgreSQL database"
  else if agent_name = "formatter_agent" then
    "for formatting data into clean, human-friendly responses"
  else "no description available"

/-- Embedding of available_agents_desc of src/mcp_agents/planner_agent.py
lines 20-23: one line per available agent name, joined with newlines. -/
def available_agents_desc (available_agent_names : List String) : String :=
  String.intercalate "\n"
    (available_agent_names.map
      (fun n => " - " ++ n ++ ": " ++ agent_descriptions n))

/-- The fixed text of the planner system message around the agent list,
src/mcp_agents/planner_agent.py lines 29-35. -/
def planner_sysmsg_header : String :=
  "You are a planner that assigns tasks to the following specialized agents:\n"

/-- The trailing instructions of the planner system message,
src/mcp_agents/planner_agent.py lines 32-34. -/
def planner_sysmsg_footer : String :=
  "\n\nRespond concisely. Only invoke an agent if truly necessary. "
    ++ "Once an agent finishes its role (it signals with its termination "
    ++ "message), do not invoke it again."
    ++ "When you have completed your part, please end your reply with "
    ++ "[TERMINATE_ALL]."

/-- Embedding of create_planner_agent, src/mcp_agents/planner_agent.py
lines 3-39: the coordinator named planner whose system message lists the
available agent names it was given. -/
def create_planner_agent (available_agent_names : List String) :
    AssistantAgent :=
  { name := "planner",
    description :=
      "Creates plans to fulfill user requests by coordinating specialized agents",
    system_message :=
      planner_sysmsg_header
        ++ available_agents_desc available_agent_names
        ++ planner_sysmsg_footer }

/-- The worker-collection loop of AgentManager.initialize_agents,
src/mcp_agents/agent_manager.py lines 145-168: iterate over the enablement
configuration in order; for every enabled kind, load its creation function
and call it; append the agent only when construction succeeded. The construct
parameter folds together the external effects of one kind: it yields some
agent when the load and the creation both succeed, and none when the load
fails, the creation raises, or the creation returns None. -/
def successful_workers (config : List (String × Bool))
    (construct : String → Option AssistantAgent) : List AssistantAgent :=
  config.foldl
    (fun acc kv =>
      if kv.2 then
        match construct kv.1 with
        | some agent => acc ++ [agent]
        | none => acc
      else acc)
    []

/-- Embedding of AgentManager.initialize_agents, src/mcp_agents/
agent_manager.py lines 137-185: collect the successfully constructed workers;
when none succeeded return the empty list; otherwise append exactly one
planner built from the names of the collected workers. The planner creation
function lives under src/ and is pure, so its load is modelled as
succeeding. -/
def initialize_agents (config : List (String × Bool))
    (construct : String → Option AssistantAgent) : List AssistantAgent :=
  let worker_agents := successful_workers config construct
  if worker_agents.isEmpty then []
  else
    worker_agents
      ++ [create_planner_agent (worker_agents.map (fun a => a.name))]

/-- Embedding of AgentManager.create_selector_prompt, src/mcp_agents/
agent_manager.py lines 214-235 (whitespace of the Python literal kept). -/
def create_selector_prompt : String :=
  "\n        Below is a conversation where a user has made a request, and a planner is coordinating specialized agents to fulfill it.\n        The planner has already created a plan with specific tasks for each agent based on their capabilities.\n        \n        Team members and their roles:\n        {roles}\n        \n        Based on the current conversation and tasks being discussed, which team member should respond next?\n        Select one team member from {participants} who is best suited to handle the current task or situation.\n        Return only the name of the selected team member.\n        \n        {history}\n        "

/-- The SelectorGroupChat value assembled by AgentManager.create_chat,
src/mcp_agents/agent_manager.py lines 273-278: the participants, the
selector prompt and the termination configuration it was given. -/
structure SelectorGroupChat where
  participants : List AssistantAgent
  selector_prompt : String
  termination_keyword : List Char
  termination_max_turns : Nat
deriving DecidableEq

/-- Embedding of AgentManager.create_chat, src/mcp_agents/agent_manager.py
lines 250-281: initialize the enabled agents; when the list is empty print
the error and return None before constructing any chat; otherwise build the
SelectorGroupChat over all agents with the default termination condition. -/
def create_chat (config : List (String × Bool))
    (construct : String → Option AssistantAgent) : Option SelectorGroupChat :=
  let all_agents := initialize_agents config construct
  if all_agents.isEmpty then none
  else
    some { participants := all_agents,
           selector_prompt := create_selector_prompt,
           termination_keyword := default_termination_keyword,
           termination_max_turns := default_max_turns }

/-- Modelled from the spec: the session orchestrator that consumes
create_chat (the Session Orchestrator of spec section 4.5) has no caller
under src/ for this manager. Per the spec, the session runs the chat only
when a chat was created, and otherwise fails fast with a user-visible error
string. The run_chat capability returns the number of model completion calls
it performed together with the session answer, so the fail-fast path is the
pair of zero calls and the error string. -/
def process_session (config : List (String × Bool))
    (construct : String → Option AssistantAgent)
    (run_chat : SelectorGroupChat → Nat × String) : Nat × String :=
  match create_chat config construct with
  | none => (0, "Error: No agents available. Cannot create chat.")
  | some chat => run_chat chat

/- ## Section 7: answer extraction (src/autogen_agent.py, process_query) -/

/-- The whitespace characters removed by the Python str.strip with no
arguments, restricted to ASCII: space, tab, newline, carriage return,
vertical tab and form feed. -/
def isPyWs (c : Char) : Bool :=
  c == ' ' || c == '\t' || c == '\n' || c == '\r'
    || c == Char.ofNat 11 || c == Char.ofNat 12

/-- Embedding of str.strip: drop leading and trailing whitespace. -/
def stripWs (s : List Char) : List Char :=
  ((s.dropWhile isPyWs).reverse.dropWhile isPyWs).reverse

/-- The characters after the first colon of a string, mirroring the element
at index 1 of the Python split with a colon separator and maxsplit 1; none
when the string holds no colon (where the Python indexing would raise, a case
unreachable for the formatted messages below, which always contain one). -/
def afterFirstColon : List Char → Option (List Char)
  | [] => none
  | c :: cs => if c == ':' then some cs else afterFirstColon cs

/-- One message collected from the chat stream by process_query,
src/autogen_agent.py lines 341-347: the speaker (message.source) and the
message content. -/
structure TranscriptMsg where
  source : List Char
  content : List Char
deriving DecidableEq

/-- The string form in which process_query collects each message,
src/autogen_agent.py line 345: the speaker, a colon and a space, then the
content. -/
def format_message (m : TranscriptMsg) : List Char :=
  m.source ++ ':' :: ' ' :: m.content

/-- The tag tested by the startswith check of src/autogen_agent.py
line 354. -/
def planner_tag : List Char := "planner:".toList

/-- The name of the coordinator agent. -/
def planner_name : List Char := "planner".toList

/-- What process_query returns for one selected formatted message,
src/autogen_agent.py lines 355 and 358: everything after the first colon,
stripped of surrounding whitespace. The unreachable no-colon case yields the
empty string. -/
def extract_from_line (s : List Char) : List Char :=
  stripWs ((afterFirstColon s).getD [])

/-- The sentinel answer for an empty transcript, src/autogen_agent.py
line 360. -/
def no_response_sentinel : List Char :=
  "No response generated by the agent team.".toList

/-- Embedding of the answer extraction of process_query,
src/autogen_agent.py lines 349-360: walk the collected formatted messages in
reverse and return the extract of the first one that does not start with the
planner tag; when every message starts with it, return the extract of the
last message; for the empty transcript return the sentinel string. -/
def process_query_answer (msgs : List TranscriptMsg) : List Char :=
  match (msgs.map format_message).reverse.find?
      (fun s => ! planner_tag.isPrefixOf s) with
  | some s => extract_from_line s
  | none =>
      match (msgs.map format_message).getLast? with
      | some s => extract_from_line s
      | none => no_response_sentinel

/- ## Theorems -/

/-- Accumulating one segment per element into the accumulator is the bind. -/
theorem foldl_append_seg_eq_bind {α β : Type} (f : α → List β) :
    ∀ (l : List α) (acc : List β),
      l.foldl (fun a x => a ++ f x) acc = acc ++ l.bind f
  | [], _ => by simp
  | x :: xs, acc => by
    simpa using foldl_append_seg_eq_bind f xs (acc ++ f x)

/-- C10: the sarcasm operation of the dialogue tool host is a total pure
function of the phrase: for every Unicode case table and every phrase it
returns the concatenation, in input order, of the uppercase of each
character at an even index of the phrase and the lowercase of each
character at an odd index, with the smiley suffix appended. Under the ASCII
fragment of the Python case mappings the phrase hello yields HeLlO with the
suffix; a case mapping that uppercases the sharp s to SS shows the result
on a German spelling, where one input character expands to two. -/
theorem sarcasm_characterization (cm : CaseMapping) (phrase : List Char) :
    sarcasm cm phrase
      = (phrase.enum.bind
          (fun ic => if ic.1 % 2 == 0 then cm.upper ic.2 else cm.lower ic.2))
        ++ smileySuffix
    ∧ sarcasm asciiCaseMapping "hello".toList = "HeLlO 🙃".toList
    ∧ sarcasm
        { upper := fun c => if c = 'ß' then ['S', 'S'] else [c.toUpper],
          lower := fun c => [c.toLower] }
        "Straße".toList
      = "StRaSSe 🙃".toList := by
  refine ⟨?_, by decide, by decide⟩
  unfold sarcasm
  rw [foldl_append_seg_eq_bind]
  simp

/-- C8 counterexample: a second connect() on an already-connected channel is
not a no-op — the client state changes again, and two initialize handshakes
have been exchanged with the tool-host process after two connect() calls
where idempotence would require one. -/
theorem connect_not_idempotent :
    connect (connect initial_client) ≠ connect initial_client
    ∧ (connect (connect initial_client)).init_exchanges = 2
    ∧ (connect initial_client).init_exchanges = 1 :=
  ⟨by decide, rfl, rfl⟩

/-- C8 amended: connect() is never a no-op — every call performs one more
initialize handshake with the tool-host process and installs a fresh session,
and the channel caches no tool catalog: every catalog request on a connected
channel performs one more list_tools exchange. -/
theorem connect_always_handshakes (c : MCPClient) (host_tools : List String)
    (h : c.session.isSome = true) :
    (connect c).init_exchanges = c.init_exchanges + 1
    ∧ (connect c).session = some c.init_exchanges
    ∧ connect c ≠ c
    ∧ (get_available_tools c host_tools).1.list_tools_exchanges
        = c.list_tools_exchanges + 1 := by
  refine ⟨rfl, rfl, ?_, ?_⟩
  · intro heq
    have h2 := congrArg MCPClient.init_exchanges heq
    simp [connect] at h2
  · match hs : c.session with
    | none => rw [hs] at h; simp at h
    | some s => simp [get_available_tools, hs]

/-- Witness for the C8 amended theorem at a connected client. -/
theorem connect_always_handshakes_witness :
    (connect (connect initial_client)).init_exchanges
        = (connect initial_client).init_exchanges + 1
    ∧ (connect (connect initial_client)).session
        = some (connect initial_client).init_exchanges
    ∧ connect (connect initial_client) ≠ connect initial_client
    ∧ (get_available_tools (connect initial_client) ["t"]).1.list_tools_exchanges
        = (connect initial_client).list_tools_exchanges + 1 :=
  connect_always_handshakes (connect initial_client) ["t"] rfl

/-- C9: before open() succeeds the channel has no session, and both the
catalog request and the tool invocation fail with the not-connected error
while leaving the client state unchanged (no exchange with the tool host);
on a channel whose session is established they return the host results and
never that error; and a successful connect() establishes the session. -/
theorem channel_not_ready_errors (c : MCPClient) (host_tools : List String)
    (tname targs tres : String) :
    (c.session = none →
      get_available_tools c host_tools
          = (c, Except.error "Not connected to MCP server")
      ∧ call_tool c tname targs tres
          = (c, Except.error "Not connected to MCP server"))
    ∧ (c.session.isSome = true →
      (get_available_tools c host_tools).2 = Except.ok host_tools
      ∧ (call_tool c tname targs tres).2 = Except.ok tres)
    ∧ (connect c).session.isSome = true := by
  refine ⟨?_, ?_, rfl⟩
  · intro hnone
    constructor
    · simp [get_available_tools, hnone]
    · simp [call_tool, hnone]
  · intro hsome
    match hs : c.session with
    | none => rw [hs] at hsome; simp at hsome
    | some s => exact ⟨by simp [get_available_tools, hs], by simp [call_tool, hs]⟩

/-- Witness for C9 at a never-connected client and a just-connected client. -/
theorem channel_not_ready_errors_witness :
    (get_available_tools initial_client ["t"]
        = (initial_client, Except.error "Not connected to MCP server")
      ∧ call_tool initial_client "n" "a" "r"
        = (initial_client, Except.error "Not connected to MCP server"))
    ∧ ((get_available_tools (connect initial_client) ["t"]).2 = Except.ok ["t"]
      ∧ (call_tool (connect initial_client) "n" "a" "r").2 = Except.ok "r") :=
  ⟨(channel_not_ready_errors initial_client ["t"] "n" "a" "r").1 rfl,
   (channel_not_ready_errors (connect initial_client) ["t"] "n" "a" "r").2.1 rfl⟩

/-- Accumulating two images per element into the accumulator is the bind. -/
theorem foldl_append_pair_eq_bind {α β : Type} (f g : α → β) :
    ∀ (l : List α) (acc : List β),
      l.foldl (fun a x => a ++ [f x, g x]) acc
        = acc ++ l.bind (fun x => [f x, g x])
  | [], _ => by simp
  | x :: xs, acc => by
    simpa using foldl_append_pair_eq_bind f g xs (acc ++ [f x, g x])

/-- C4: in every round with requested tool calls, the calls are processed
sequentially in the order the model returned them, each producing a linked
assistant-request / tool-result pair; a failing invocation contributes a
result message carrying the error description linked to the call identifier
instead of aborting — the round always appends both messages for every call
and then hands control back to the loop for the next model round. -/
theorem tool_error_recovery (toolExec : ToolExec) (messages : List ChatMsg)
    (calls : List ToolCall) :
    process_tool_calls toolExec messages calls
      = messages ++ calls.bind (fun call =>
          [ChatMsg.assistantCalls call,
           ChatMsg.toolResult call.id call.function_name
             (tool_result_text toolExec call)])
    ∧ (process_tool_calls toolExec messages calls).length
        = messages.length + 2 * calls.length
    ∧ (∀ call ∈ calls, ∀ e,
        toolExec call.function_name call.function_arguments = Except.error e →
        ChatMsg.toolResult call.id call.function_name
            ("Error executing " ++ call.function_name ++ ": " ++ e)
          ∈ process_tool_calls toolExec messages calls)
    ∧ (∀ model_msg : ModelChoice, model_msg.finish_tool_calls = true →
        model_msg.tool_calls = calls → calls ≠ [] →
        run_round toolExec model_msg messages
          = Sum.inl (match model_msg.content with
              | some c =>
                  process_tool_calls toolExec messages calls
                    ++ [ChatMsg.assistantText c]
              | none => process_tool_calls toolExec messages calls)) := by
  have hbind := foldl_append_pair_eq_bind
    (fun call => ChatMsg.assistantCalls call)
    (fun call => ChatMsg.toolResult call.id call.function_name
      (tool_result_text toolExec call)) calls messages
  refine ⟨hbind, ?_, ?_, ?_⟩
  · rw [process_tool_calls, hbind]
    have hlen : ∀ l : List ToolCall,
        (l.bind (fun call =>
          [ChatMsg.assistantCalls call,
           ChatMsg.toolResult call.id call.function_name
             (tool_result_text toolExec call)])).length = 2 * l.length := by
      intro l
      induction l with
      | nil => rfl
      | cons c cs ih => simp [ih]; omega
    rw [List.length_append, hlen]
  · intro call hmem e herr
    rw [process_tool_calls, hbind]
    refine List.mem_append_right _ ?_
    refine List.mem_bind.mpr ⟨call, hmem, ?_⟩
    have : tool_result_text toolExec call
        = "Error executing " ++ call.function_name ++ ": " ++ e := by
      rw [tool_result_text, herr]
    rw [this]
    simp
  · intro model_msg hf hc hne
    obtain ⟨c0, rest, rfl⟩ := List.exists_cons_of_ne_nil hne
    cases hcontent : model_msg.content with
    | some c => simp [run_round, hf, hc, hcontent]
    | none => simp [run_round, hf, hc, hcontent]

/-- Witness for C4: a concrete round with one succeeding and one failing
call keeps both pairs, records the error description for the failed call
under its identifier, and continues the loop. -/
theorem tool_error_recovery_witness :
    ChatMsg.toolResult "call_2" "bad" "Error executing bad: no such tool"
      ∈ process_tool_calls
          (fun n _ => if n = "ok" then Except.ok "fine"
                      else Except.error "no such tool")
          [ChatMsg.user "q"]
          [{ id := "call_1", function_name := "ok", function_arguments := "1" },
           { id := "call_2", function_name := "bad", function_arguments := "2" }] :=
  (tool_error_recovery
      (fun n _ => if n = "ok" then Except.ok "fine"
                  else Except.error "no such tool")
      [ChatMsg.user "q"]
      [{ id := "call_1", function_name := "ok", function_arguments := "1" },
       { id := "call_2", function_name := "bad", function_arguments := "2" }]).2.2.1
    { id := "call_2", function_name := "bad", function_arguments := "2" }
    (by decide)
    "no such tool"
    rfl

/-- For a model that requests a tool call on every completion, the loop of
PostgreSQLAgent.run is still running after any number of rounds. -/
theorem run_loop_always_tool_none (toolExec : ToolExec) :
    ∀ (fuel : Nat) (messages : List ChatMsg),
      run_loop always_tool_model toolExec fuel messages = none := by
  intro fuel
  induction fuel with
  | zero => intro messages; rfl
  | succ n ih =>
      intro messages
      have hround : run_round toolExec (always_tool_model messages) messages
          = Sum.inl (process_tool_calls toolExec messages
              (always_tool_model messages).tool_calls) := by
        simp [run_round, always_tool_model]
      rw [run_loop, hround]
      exact ih _

/-- C5 counterexample: the tool-calling loop of the code has no per-turn
round cap — under the synthetic model that requests a tool call on every
completion, no finite number of rounds produces any outcome, so the loop
runs indefinitely instead of stopping at a configured limit. -/
theorem round_cap_counterexample :
    ¬ loop_terminates always_tool_model failing_tool [ChatMsg.user "q"] := by
  intro h
  obtain ⟨fuel, outcome, hrun⟩ := h
  rw [run_loop_always_tool_none failing_tool fuel [ChatMsg.user "q"]] at hrun
  exact Option.noConfusion hrun

/-- C5 amended: the code implements no max-rounds safety valve — for every
tool backend, a model that returns a tool-call request on every completion
keeps the loop of PostgreSQLAgent.run running after any number of rounds,
and the set of turn outcomes of the code contains no aborted-turn outcome at
all (only the final-answer exit and the defensive empty-calls break). -/
theorem loop_has_no_round_cap (toolExec : ToolExec) (fuel : Nat)
    (messages : List ChatMsg) :
    run_loop always_tool_model toolExec fuel messages = none
    ∧ ∀ o : TurnOutcome,
        (∃ c, o = TurnOutcome.finalAnswer c) ∨ o = TurnOutcome.noCallsBreak := by
  refine ⟨run_loop_always_tool_none toolExec fuel messages, ?_⟩
  intro o
  cases o with
  | finalAnswer c => exact Or.inl ⟨c, rfl⟩
  | noCallsBreak => exact Or.inr rfl


/-- A loaded entry with a cached function is a fixpoint of the loader. -/
theorem load_agent_function_fix (e : AgentTypeEntry) (h1 : e.loaded = true)
    (h2 : e.create_fn.isSome = true) (r : Option String) :
    load_agent_function e r = (e, e.create_fn) := by
  simp [load_agent_function, h1, h2]

/-- A loaded entry with a cached function never changes again. -/
theorem run_resolves_fix (e : AgentTypeEntry) (h1 : e.loaded = true)
    (h2 : e.create_fn.isSome = true) :
    ∀ rs, run_resolves e rs = e := by
  intro rs
  induction rs with
  | nil => rfl
  | cons r rest ih =>
      show run_resolves (load_agent_function e r).1 rest = e
      rw [load_agent_function_fix e h1 h2 r]
      exact ih

/-- Every state after a loaded entry with a cached function is that entry. -/
theorem resolve_states_fix (e : AgentTypeEntry) (h1 : e.loaded = true)
    (h2 : e.create_fn.isSome = true) :
    ∀ rs, ∀ s ∈ resolve_states e rs, s = e := by
  intro rs
  induction rs with
  | nil => intro s hs; simpa [resolve_states] using hs
  | cons r rest ih =>
      intro s hs
      rw [resolve_states, load_agent_function_fix e h1 h2 r] at hs
      rcases List.mem_cons.mp hs with h | h
      · exact h
      · exact ih s h

/-- The final entry after any sequence of resolve attempts on a freshly
registered kind is determined by the first successful import. -/
theorem run_resolves_register (m f : String) :
    ∀ imports, run_resolves (register_agent_type m f) imports
      = (match first_some imports with
         | none => register_agent_type m f
         | some g =>
             { register_agent_type m f with
                 loaded := true, create_fn := some g }) := by
  intro imports
  induction imports with
  | nil => rfl
  | cons r rest ih =>
      cases r with
      | none =>
          show run_resolves
              (load_agent_function (register_agent_type m f) none).1 rest = _
          exact ih
      | some g =>
          show run_resolves
              (load_agent_function (register_agent_type m f) (some g)).1 rest = _
          have hload : (load_agent_function (register_agent_type m f)
              (some g)).1
              = { register_agent_type m f with
                    loaded := true, create_fn := some g } := rfl
          rw [hload, run_resolves_fix
            { register_agent_type m f with loaded := true, create_fn := some g }
            rfl rfl rest]
          rfl

/-- Every state a freshly registered entry passes through is the registered
state or the single resolved state fixed by the first successful import. -/
theorem resolve_states_register (m f : String) :
    ∀ imports, ∀ s ∈ resolve_states (register_agent_type m f) imports,
      s = register_agent_type m f
      ∨ ∃ g, first_some imports = some g
          ∧ s = { register_agent_type m f with
                    loaded := true, create_fn := some g } := by
  intro imports
  induction imports with
  | nil =>
      intro s hs
      exact Or.inl (by simpa [resolve_states] using hs)
  | cons r rest ih =>
      intro s hs
      cases r with
      | none =>
          rw [resolve_states] at hs
          have hload : (load_agent_function (register_agent_type m f) none).1
              = register_agent_type m f := rfl
          rw [hload] at hs
          rcases List.mem_cons.mp hs with h | h
          · exact Or.inl h
          · rcases ih s h with h2 | ⟨g, hg, hseq⟩
            · exact Or.inl h2
            · exact Or.inr ⟨g, hg, hseq⟩
      | some g =>
          rw [resolve_states] at hs
          have hload : (load_agent_function (register_agent_type m f)
              (some g)).1
              = { register_agent_type m f with
                    loaded := true, create_fn := some g } := rfl
          rw [hload] at hs
          rcases List.mem_cons.mp hs with h | h
          · exact Or.inl h
          · exact Or.inr ⟨g, rfl, resolve_states_fix
              { register_agent_type m f with
                  loaded := true, create_fn := some g } rfl rfl rest s h⟩

/-- C7: resolution of an agent kind is cached only on success. A loaded
entry with a cached function is returned as-is without a reload for every
later import outcome; a failed load of a fresh entry leaves it exactly as
registered; a resolver that fails once and then succeeds makes the second
resolve succeed; and over any sequence of resolve attempts the entry passes
through at most the registered state and the one resolved state fixed by the
first successful import — mutated at most twice over its life, at
registration and at first successful resolution. -/
theorem registry_resolution_caching (m f fn : String)
    (entry : AgentTypeEntry) (import_result : Option String)
    (imports : List (Option String)) :
    (entry.loaded = true → entry.create_fn = some fn →
      load_agent_function entry import_result = (entry, some fn))
    ∧ load_agent_function (register_agent_type m f) none
        = (register_agent_type m f, none)
    ∧ (load_agent_function
        (load_agent_function (register_agent_type m f) none).1 (some fn)).2
        = some fn
    ∧ run_resolves (register_agent_type m f) imports
        = (match first_some imports with
           | none => register_agent_type m f
           | some g =>
               { register_agent_type m f with
                   loaded := true, create_fn := some g })
    ∧ (∀ s ∈ resolve_states (register_agent_type m f) imports,
        s = register_agent_type m f
        ∨ ∃ g, first_some imports = some g
            ∧ s = { register_agent_type m f with
                      loaded := true, create_fn := some g }) := by
  refine ⟨?_, rfl, rfl, ?_, ?_⟩
  · intro hl hc
    simp [load_agent_function, hl, hc]
  · exact run_resolves_register m f imports
  · exact resolve_states_register m f imports

/-- Pointwise equal predicates agree under any. -/
theorem any_congr_mem {α : Type} (f g : α → Bool) :
    ∀ (l : List α), (∀ x ∈ l, f x = g x) → l.any f = l.any g
  | [], _ => rfl
  | x :: xs, h => by
    simp only [List.any_cons]
    rw [h x (List.mem_cons_self x xs),
      any_congr_mem f g xs (fun y hy => h y (List.mem_cons_of_mem x hy))]

/-- Appending one message re-evaluates the termination condition and joins it
to the prior session state with the logical OR. -/
theorem session_terminated_snoc (keyword : List Char) (max_turns : Nat)
    (t : List (List Char)) (m : List Char) :
    session_terminated keyword max_turns (t ++ [m])
      = (session_terminated keyword max_turns t
          || create_termination_condition keyword max_turns (t ++ [m])) := by
  unfold session_terminated
  have hlen : (t ++ [m]).length = t.length + 1 := by simp
  rw [hlen, List.range_succ, List.any_append]
  have h1 : (List.range t.length).any
      (fun i => create_termination_condition keyword max_turns
        ((t ++ [m]).take (i + 1)))
      = (List.range t.length).any
      (fun i => create_termination_condition keyword max_turns
        (t.take (i + 1))) := by
    apply any_congr_mem
    intro i hi
    have : i < t.length := List.mem_range.mp hi
    rw [List.take_append_of_le_length (by omega)]
  have h2 : ([t.length].any
      (fun i => create_termination_condition keyword max_turns
        ((t ++ [m]).take (i + 1))))
      = create_termination_condition keyword max_turns (t ++ [m]) := by
    simp only [List.any_cons, List.any_nil, Bool.or_false]
    have : (t ++ [m]).take (t.length + 1) = t ++ [m] := by
      rw [← hlen]
      exact List.take_length (t ++ [m])
    rw [this]
  rw [h1, h2]

/-- C2: the termination condition built by create_termination_condition is
the logical OR of the keyword condition on the most recent appended message
and the message-count condition with its default maximum of 15, evaluated
after every appended message; and the resulting session-termination state is
monotone — once it holds for a transcript it holds for every longer
continuation of that transcript. -/
theorem termination_policy (keyword : List Char) (max_turns : Nat)
    (t t2 : List (List Char)) (m : List Char) :
    create_termination_condition keyword max_turns t
      = (text_mention_termination keyword t
          || max_message_termination max_turns t)
    ∧ session_terminated keyword max_turns (t ++ [m])
        = (session_terminated keyword max_turns t
            || create_termination_condition keyword max_turns (t ++ [m]))
    ∧ (session_terminated keyword max_turns t = true → t <+: t2 →
        session_terminated keyword max_turns t2 = true)
    ∧ default_max_turns = 15 := by
  refine ⟨rfl, session_terminated_snoc keyword max_turns t m, ?_, rfl⟩
  intro ht hpre
  obtain ⟨u, rfl⟩ := hpre
  unfold session_terminated at ht ⊢
  rw [List.any_eq_true] at ht ⊢
  obtain ⟨i, hi, hcond⟩ := ht
  have hilt : i < t.length := List.mem_range.mp hi
  refine ⟨i, List.mem_range.mpr ?_, ?_⟩
  · rw [List.length_append]
    omega
  · rw [List.take_append_of_le_length (by omega)]
    exact hcond

/-- Witness for C2: a session terminated by the default keyword stays
terminated on a longer continuation of the same transcript. -/
theorem termination_policy_witness :
    session_terminated default_termination_keyword default_max_turns
      ["done [TERMINATE_ALL]".toList, "extra".toList] = true :=
  (termination_policy default_termination_keyword default_max_turns
      ["done [TERMINATE_ALL]".toList]
      ["done [TERMINATE_ALL]".toList, "extra".toList]
      "m".toList).2.2.1
    (by decide) (by decide)

/-- Witness for C7 at a cached entry: a later resolve returns the cached
function and leaves the entry untouched. -/
theorem registry_resolution_caching_witness :
    load_agent_function
        { module := "mcp_agents.dialogue_agent",
          function := "create_dialogue_agent",
          loaded := true, create_fn := some "create_dialogue_agent" } none
      = ({ module := "mcp_agents.dialogue_agent",
           function := "create_dialogue_agent",
           loaded := true, create_fn := some "create_dialogue_agent" },
         some "create_dialogue_agent") :=
  (registry_resolution_caching "mcp_agents.dialogue_agent"
      "create_dialogue_agent" "create_dialogue_agent"
      { module := "mcp_agents.dialogue_agent",
        function := "create_dialogue_agent",
        loaded := true, create_fn := some "create_dialogue_agent" }
      none []).1 rfl rfl

/-- C3: whenever at least one worker was successfully constructed, the
materialized roster is the successful workers followed by exactly one
coordinator, the planner, appended last; no other roster member is named
planner; and the system prompt of the planner is built from precisely the
names of the successful workers, one description line per name — so a kind
that was disabled or whose construction failed contributes no line. -/
theorem roster_materialization (config : List (String × Bool))
    (construct : String → Option AssistantAgent)
    (hne : successful_workers config construct ≠ [])
    (hnp : ∀ a ∈ successful_workers config construct, a.name ≠ "planner") :
    initialize_agents config construct
      = successful_workers config construct
        ++ [create_planner_agent
             ((successful_workers config construct).map (fun a => a.name))]
    ∧ (initialize_agents config construct).getLast?
        = some (create_planner_agent
            ((successful_workers config construct).map (fun a => a.name)))
    ∧ ((initialize_agents config construct).filter
        (fun a => a.name == "planner")).length = 1
    ∧ (create_planner_agent
        ((successful_workers config construct).map (fun a => a.name))).name
        = "planner"
    ∧ (create_planner_agent
        ((successful_workers config construct).map
          (fun a => a.name))).system_message
      = planner_sysmsg_header
        ++ String.intercalate "\n"
          (((successful_workers config construct).map (fun a => a.name)).map
            (fun n => " - " ++ n ++ ": " ++ agent_descriptions n))
        ++ planner_sysmsg_footer := by
  have hmain : initialize_agents config construct
      = successful_workers config construct
        ++ [create_planner_agent
             ((successful_workers config construct).map (fun a => a.name))] := by
    unfold initialize_agents
    have : (successful_workers config construct).isEmpty = false := by
      cases hws : successful_workers config construct with
      | nil => exact absurd hws hne
      | cons a as => rfl
    simp [this]
  refine ⟨hmain, ?_, ?_, rfl, rfl⟩
  · rw [hmain]
    exact List.getLast?_concat _
  · rw [hmain, List.filter_append]
    have hws : (successful_workers config construct).filter
        (fun a => a.name == "planner") = [] := by
      rw [List.filter_eq_nil]
      intro a ha
      simpa using hnp a ha
    rw [hws]
    simp [create_planner_agent]

/-- Witness for C3: with the dialogue kind constructing, the postgres kind
failing and the formatter kind disabled, the roster holds exactly one agent
named planner. -/
theorem roster_materialization_witness :
    ((initialize_agents
        [("dialogue_agent", true), ("postgres_agent", true),
         ("formatter_agent", false)]
        (fun k => if k = "dialogue_agent" then
            some { name := "dialogue_agent", description := "d",
                   system_message := "s" }
          else none)).filter (fun a => a.name == "planner")).length = 1 :=
  (roster_materialization
      [("dialogue_agent", true), ("postgres_agent", true),
       ("formatter_agent", false)]
      (fun k => if k = "dialogue_agent" then
          some { name := "dialogue_agent", description := "d",
                 system_message := "s" }
        else none)
      (by decide) (by decide)).2.2.1

/-- C6: when zero workers were successfully materialized, roster
materialization yields the empty list, create_chat returns None without
building a chat, and the modelled session fails fast with the user-visible
error string and zero model completion calls, whatever the chat runner would
have done. -/
theorem empty_roster_fails_fast (config : List (String × Bool))
    (construct : String → Option AssistantAgent)
    (run_chat : SelectorGroupChat → Nat × String)
    (h : successful_workers config construct = []) :
    initialize_agents config construct = []
    ∧ create_chat config construct = none
    ∧ process_session config construct run_chat
        = (0, "Error: No agents available. Cannot create chat.") := by
  have h1 : initialize_agents config construct = [] := by
    simp [initialize_agents, h]
  have h2 : create_chat config construct = none := by
    simp [create_chat, h1]
  exact ⟨h1, h2, by simp [process_session, h2]⟩

/-- Witness for C6: every enabled kind failing to construct makes the
session fail fast with zero model calls. -/
theorem empty_roster_fails_fast_witness :
    create_chat [("dialogue_agent", true), ("postgres_agent", true)]
        (fun _ => none) = none
    ∧ process_session [("dialogue_agent", true), ("postgres_agent", true)]
        (fun _ => none) (fun _ => (5, "ran"))
        = (0, "Error: No agents available. Cannot create chat.") :=
  ⟨(empty_roster_fails_fast
      [("dialogue_agent", true), ("postgres_agent", true)]
      (fun _ => none) (fun _ => (5, "ran")) (by decide)).2.1,
   (empty_roster_fails_fast
      [("dialogue_agent", true), ("postgres_agent", true)]
      (fun _ => none) (fun _ => (5, "ran")) (by decide)).2.2⟩

/-- Splitting a formatted message with a colon-free speaker at the first
colon yields the space-led content. -/
theorem afterFirstColon_format (src content : List Char)
    (h : (':' : Char) ∉ src) :
    afterFirstColon (src ++ ':' :: ' ' :: content) = some (' ' :: content) := by
  induction src with
  | nil => rfl
  | cons c cs ih =>
      have hc : c ≠ ':' := fun hec => h (hec ▸ List.mem_cons_self c cs)
      have hcs : (':' : Char) ∉ cs := fun hm => h (List.mem_cons_of_mem c hm)
      show afterFirstColon (c :: (cs ++ ':' :: ' ' :: content)) = _
      rw [afterFirstColon, if_neg (by simpa using hc)]
      exact ih hcs

/-- Stripping ignores a leading space. -/
theorem stripWs_space (content : List Char) :
    stripWs (' ' :: content) = stripWs content := by
  unfold stripWs
  rw [List.dropWhile_cons, if_pos (by decide)]

/-- The extract of a formatted message with a colon-free speaker is the
whitespace-stripped content. -/
theorem extract_format (src content : List Char) (h : (':' : Char) ∉ src) :
    extract_from_line (format_message { source := src, content := content })
      = stripWs content := by
  unfold extract_from_line format_message
  rw [afterFirstColon_format src content h]
  simp only [Option.getD_some]
  exact stripWs_space content

/-- Checking a colon-closed tag against a formatted string whose head part is
colon-free decides equality of the two head parts. -/
theorem colon_tag_isPrefixOf :
    ∀ (p s u : List Char), (':' : Char) ∉ p → (':' : Char) ∉ s →
      ((p ++ [':']).isPrefixOf (s ++ ':' :: u)) = (p == s)
  | [], [], u, _, _ => by
      show (([':'] : List Char).isPrefixOf (':' :: u)) = _
      simp [List.isPrefixOf]
  | [], b :: s2, u, _, hs => by
      have hb : (':' : Char) ≠ b :=
        fun hcb => hs (hcb ▸ List.mem_cons_self b s2)
      show (([':'] : List Char).isPrefixOf (b :: (s2 ++ ':' :: u))) = _
      simp only [List.isPrefixOf]
      rw [Bool.and_eq_false_iff.mpr (Or.inl (by simpa using hb))]
      rfl
  | a :: p2, [], u, hp, _ => by
      have ha : a ≠ ':' := fun h => hp (h ▸ List.mem_cons_self a p2)
      show ((a :: (p2 ++ [':'])).isPrefixOf (':' :: u)) = _
      simp only [List.isPrefixOf]
      rw [Bool.and_eq_false_iff.mpr (Or.inl (by simpa using ha))]
      rfl
  | a :: p2, b :: s2, u, hp, hs => by
      have hp2 : (':' : Char) ∉ p2 := fun h => hp (List.mem_cons_of_mem a h)
      have hs2 : (':' : Char) ∉ s2 := fun h => hs (List.mem_cons_of_mem b h)
      show ((a :: (p2 ++ [':'])).isPrefixOf (b :: (s2 ++ ':' :: u))) = _
      simp only [List.isPrefixOf]
      rw [colon_tag_isPrefixOf p2 s2 u hp2 hs2]
      rfl

/-- Boolean equality of character lists is symmetric. -/
theorem list_char_beq_comm (x y : List Char) : (x == y) = (y == x) := by
  by_cases h : x = y
  · subst h; rfl
  · rw [beq_eq_false_iff_ne.mpr h, beq_eq_false_iff_ne.mpr (Ne.symm h)]

/-- The startswith check on a formatted message with a colon-free speaker is
the equality check of the speaker with the planner name. -/
theorem planner_tag_check (m : TranscriptMsg)
    (h : (':' : Char) ∉ m.source) :
    planner_tag.isPrefixOf (format_message m) = (m.source == planner_name) := by
  have h1 : planner_tag = planner_name ++ [':'] := by decide
  have h2 : (':' : Char) ∉ planner_name := by decide
  rw [h1]
  show ((planner_name ++ [':']).isPrefixOf
      (m.source ++ ':' :: ' ' :: m.content)) = _
  rw [colon_tag_isPrefixOf planner_name m.source (' ' :: m.content) h2 h]
  exact list_char_beq_comm planner_name m.source

/-- Pointwise equal predicates agree under find?. -/
theorem find?_congr_mem {α : Type} (p q : α → Bool) :
    ∀ l : List α, (∀ x ∈ l, p x = q x) → l.find? p = l.find? q
  | [], _ => rfl
  | x :: xs, h => by
      simp only [List.find?]
      rw [h x (List.mem_cons_self x xs)]
      cases hq : q x with
      | true => rfl
      | false =>
          exact find?_congr_mem p q xs
            (fun y hy => h y (List.mem_cons_of_mem x hy))

/-- The reverse scan over the formatted messages finds exactly the image of
the first transcript message from the end whose speaker is not the planner,
provided the speakers are colon-free. -/
theorem find_formatted (msgs : List TranscriptMsg)
    (hsp : ∀ m ∈ msgs, (':' : Char) ∉ m.source) :
    (msgs.map format_message).reverse.find?
        (fun s => ! planner_tag.isPrefixOf s)
      = (msgs.reverse.find?
          (fun x => ! (x.source == planner_name))).map format_message := by
  rw [← List.map_reverse, List.find?_map]
  congr 1
  apply find?_congr_mem
  intro x hx
  have hx2 : x ∈ msgs := List.mem_reverse.mp hx
  simp only [Function.comp_apply]
  rw [planner_tag_check x (hsp x hx2)]

/-- C1 counterexample: the extraction does not return the content of the
chosen message verbatim — for the one-message transcript whose worker content
carries surrounding spaces, the code returns the stripped text, which differs
from the content. -/
theorem answer_extraction_counterexample :
    process_query_answer
        [{ source := "worker".toList, content := " 42 ".toList }]
      = "42".toList
    ∧ "42".toList ≠ " 42 ".toList := by
  exact ⟨by decide, by decide⟩

/-- C1 amended: for every transcript whose speaker names are colon-free, the
extraction returns the whitespace-stripped content of the first message in
reverse order whose speaker is not the planner; when every message is from
the planner it returns the stripped content of the last message; the empty
transcript yields the sentinel answer string rather than an exception; and
the four-message example transcript yields the text 42. -/
theorem answer_extraction (msgs : List TranscriptMsg)
    (hsp : ∀ m ∈ msgs, (':' : Char) ∉ m.source) :
    (∀ m, msgs.reverse.find? (fun x => ! (x.source == planner_name)) = some m →
      process_query_answer msgs = stripWs m.content)
    ∧ (msgs.reverse.find? (fun x => ! (x.source == planner_name)) = none →
        ∀ m, msgs.getLast? = some m →
          process_query_answer msgs = stripWs m.content)
    ∧ (msgs = [] → process_query_answer msgs = no_response_sentinel)
    ∧ process_query_answer
        [{ source := "user".toList, content := "q".toList },
         { source := "planner".toList, content := "planning...".toList },
         { source := "worker".toList, content := "42".toList },
         { source := "planner".toList, content := "[TERMINATE]".toList }]
        = "42".toList := by
  refine ⟨?_, ?_, ?_, by decide⟩
  · intro m hfind
    have hm : m ∈ msgs := List.mem_reverse.mp (List.mem_of_find?_eq_some hfind)
    unfold process_query_answer
    rw [find_formatted msgs hsp, hfind, Option.map_some']
    have := extract_format m.source m.content (hsp m hm)
    exact this
  · intro hnone m hlast
    have hm : m ∈ msgs := List.mem_of_mem_getLast? hlast
    unfold process_query_answer
    rw [find_formatted msgs hsp, hnone, Option.map_none']
    rw [List.getLast?_map, hlast, Option.map_some']
    exact extract_format m.source m.content (hsp m hm)
  · intro h
    subst h
    rfl

/-- Witness for the C1 amended theorem on the four-message example
transcript of the specification. -/
theorem answer_extraction_witness :
    process_query_answer
        [{ source := "user".toList, content := "q".toList },
         { source := "planner".toList, content := "planning...".toList },
         { source := "worker".toList, content := "42".toList },
         { source := "planner".toList, content := "[TERMINATE]".toList }]
      = "42".toList :=
  (answer_extraction
      [{ source := "user".toList, content := "q".toList },
       { source := "planner".toList, content := "planning...".toList },
       { source := "worker".toList, content := "42".toList },
       { source := "planner".toList, content := "[TERMINATE]".toList }]
      (by decide)).2.2.2
